import Mathlib

/-!
Verification of the turn-state machine of the mental-model chat demo
(`app3.py`): mental-model inference and sanitization, assumption
inference and sanitization, the lock state machine, and the per-turn
session-state updates.

The external text-generation service and the `json.loads` parser are
collaborators: each LLM round-trip is modelled as an oracle function
from the variable payload the code sends (the user message, the rendered
transcript, or the composed prompt) to the parsed result, where `none`
stands for a call or parse failure.  Python values that can flow out of
parsed JSON are modelled by the inductive type `PyVal`; machine floats
are modelled by rationals (the claims under study only compare, clamp
and copy these values, which the rational model reflects exactly).
-/

/-- A Python value as produced by `json.loads` (and the scalar values the
UI controls produce).  Objects are association lists; `json.loads` keeps
the last binding for a duplicated key, which lookups below respect. -/
inductive PyVal where
  | null : PyVal
  | bool (b : Bool) : PyVal
  | num (q : ℚ) : PyVal
  | str (s : String) : PyVal
  | list (xs : List PyVal) : PyVal
  | dict (fields : List (String × PyVal)) : PyVal
deriving Repr

mutual

/-- Decidable structural equality on `PyVal` (hand-rolled: the deriving
handler does not support this nested inductive). -/
def PyVal.decEq : (a b : PyVal) → Decidable (a = b)
  | .null, .null => .isTrue rfl
  | .null, .bool _ => .isFalse nofun
  | .null, .num _ => .isFalse nofun
  | .null, .str _ => .isFalse nofun
  | .null, .list _ => .isFalse nofun
  | .null, .dict _ => .isFalse nofun
  | .bool _, .null => .isFalse nofun
  | .bool x, .bool y =>
    if h : x = y then .isTrue (by rw [h]) else .isFalse (by intro hh; injection hh; contradiction)
  | .bool _, .num _ => .isFalse nofun
  | .bool _, .str _ => .isFalse nofun
  | .bool _, .list _ => .isFalse nofun
  | .bool _, .dict _ => .isFalse nofun
  | .num _, .null => .isFalse nofun
  | .num _, .bool _ => .isFalse nofun
  | .num x, .num y =>
    if h : x = y then .isTrue (by rw [h]) else .isFalse (by intro hh; injection hh; contradiction)
  | .num _, .str _ => .isFalse nofun
  | .num _, .list _ => .isFalse nofun
  | .num _, .dict _ => .isFalse nofun
  | .str _, .null => .isFalse nofun
  | .str _, .bool _ => .isFalse nofun
  | .str _, .num _ => .isFalse nofun
  | .str x, .str y =>
    if h : x = y then .isTrue (by rw [h]) else .isFalse (by intro hh; injection hh; contradiction)
  | .str _, .list _ => .isFalse nofun
  | .str _, .dict _ => .isFalse nofun
  | .list _, .null => .isFalse nofun
  | .list _, .bool _ => .isFalse nofun
  | .list _, .num _ => .isFalse nofun
  | .list _, .str _ => .isFalse nofun
  | .list xs, .list ys =>
    match PyVal.decEqList xs ys with
    | .isTrue h => .isTrue (by rw [h])
    | .isFalse h => .isFalse (by intro hh; injection hh; contradiction)
  | .list _, .dict _ => .isFalse nofun
  | .dict _, .null => .isFalse nofun
  | .dict _, .bool _ => .isFalse nofun
  | .dict _, .num _ => .isFalse nofun
  | .dict _, .str _ => .isFalse nofun
  | .dict _, .list _ => .isFalse nofun
  | .dict xs, .dict ys =>
    match PyVal.decEqFields xs ys with
    | .isTrue h => .isTrue (by rw [h])
    | .isFalse h => .isFalse (by intro hh; injection hh; contradiction)

/-- Decidable equality of `PyVal` lists. -/
def PyVal.decEqList : (a b : List PyVal) → Decidable (a = b)
  | [], [] => .isTrue rfl
  | [], _ :: _ => .isFalse nofun
  | _ :: _, [] => .isFalse nofun
  | x :: xs, y :: ys =>
    match PyVal.decEq x y, PyVal.decEqList xs ys with
    | .isTrue h1, .isTrue h2 => .isTrue (by rw [h1, h2])
    | .isFalse h1, _ => .isFalse (by intro hh; injection hh; contradiction)
    | _, .isFalse h2 => .isFalse (by intro hh; injection hh; contradiction)

/-- Decidable equality of `PyVal` association lists. -/
def PyVal.decEqFields : (a b : List (String × PyVal)) → Decidable (a = b)
  | [], [] => .isTrue rfl
  | [], _ :: _ => .isFalse nofun
  | _ :: _, [] => .isFalse nofun
  | (k1, v1) :: xs, (k2, v2) :: ys =>
    if hk : k1 = k2 then
      match PyVal.decEq v1 v2, PyVal.decEqFields xs ys with
      | .isTrue h1, .isTrue h2 => .isTrue (by rw [hk, h1, h2])
      | .isFalse h1, _ =>
        .isFalse (by intro hh; injection hh with hp hl; injection hp; contradiction)
      | _, .isFalse h2 => .isFalse (by intro hh; injection hh; contradiction)
    else .isFalse (by intro hh; injection hh with hp hl; injection hp; contradiction)

end

instance : DecidableEq PyVal := PyVal.decEq

namespace PyVal

/-- Last-binding lookup in a JSON object, matching `dict[k]` on the dict
`json.loads` builds (later duplicate keys win). -/
def dlookup (fs : List (String × PyVal)) (k : String) : Option PyVal :=
  (fs.reverse.find? (fun p => p.1 = k)).map (fun p => p.2)

/-- `k in d` for a JSON object. -/
def hasKey (fs : List (String × PyVal)) (k : String) : Bool :=
  fs.any (fun p => p.1 = k)

/-- `d.get(k, dflt)` for a JSON object. -/
def dictGetD (fs : List (String × PyVal)) (k : String) (dflt : PyVal) : PyVal :=
  (dlookup fs k).getD dflt

/-- `d[k]` after a successful `k in d` check (total with a `null`
default; only used where presence was already checked). -/
def dictGet (fs : List (String × PyVal)) (k : String) : PyVal :=
  dictGetD fs k PyVal.null

/-- Does `pat` occur as a contiguous run at the head of `l`? -/
def charsHavePre : List Char → List Char → Bool
  | [], _ => true
  | _ :: _, [] => false
  | p :: ps, c :: cs => p = c && charsHavePre ps cs

/-- Does `pat` occur as a contiguous run anywhere in `l`? -/
def charsHaveSub (pat : List Char) : List Char → Bool
  | [] => pat.isEmpty
  | c :: cs => charsHavePre pat (c :: cs) || charsHaveSub pat cs

/-- Python `k in v` for a string key `k`: key membership for dicts,
element membership for lists, substring test for strings, and a
`TypeError` for every other value. -/
def pyContains (v : PyVal) (k : String) : Except Unit Bool :=
  match v with
  | .dict fs => .ok (hasKey fs k)
  | .list xs => .ok (xs.any (fun x => match x with | .str s => s = k | _ => false))
  | .str s => .ok (charsHaveSub k.toList s.toList)
  | _ => .error ()

/-- Python `v[k]` for a string key `k`: dict lookup (`KeyError` when
absent), `TypeError` on every other value. -/
def pyGetItem (v : PyVal) (k : String) : Except Unit PyVal :=
  match v with
  | .dict fs =>
    match dlookup fs k with
    | some x => .ok x
    | none => .error ()
  | _ => .error ()

/-- The numeric view Python uses for arithmetic and `isinstance(_, (int, float))`:
`bool` is an `int` subclass, so `True` reads as 1 and `False` as 0. -/
def asNum : PyVal → Option ℚ
  | .num q => some q
  | .bool b => some (if b then 1 else 0)
  | _ => none

/-- `isinstance(v, (int, float))` — true for numbers and booleans. -/
def pyIsNumeric (v : PyVal) : Bool := (asNum v).isSome

/-- Python `==` on the values compared by the app.  Numeric values
(including booleans) compare by value; other values compare structurally.
(Container comparison is modelled structurally; no comparison performed
by the app has containers on both sides.) -/
def pyEqVal (a b : PyVal) : Bool :=
  match asNum a, asNum b with
  | some x, some y => decide (x = y)
  | none, none => decide (a = b)
  | _, _ => false

/-- Python `float(v)`: identity on numbers, 1/0 on booleans, the caller
supplied string-literal semantics `floatFn` on strings (`float("0.9")`
succeeds, `float("abc")` raises), `TypeError` on everything else. -/
def pyFloat (floatFn : String → Except Unit ℚ) : PyVal → Except Unit ℚ
  | .num q => .ok q
  | .bool b => .ok (if b then 1 else 0)
  | .str s => floatFn s
  | _ => .error ()

/-- Python `str(v)` for JSON-derived values.  Numeric and container
rendering approximates the CPython `repr`; the claims only evaluate this
coercion on values that are already strings. -/
def pyStr : PyVal → String
  | .null => "None"
  | .bool true => "True"
  | .bool false => "False"
  | .num q => toString q
  | .str s => s
  | .list _ => "[...]"
  | .dict _ => "\x7b...\x7d"

end PyVal

open PyVal

/-! ## Mental model (`DEFAULT_MM` and `infer_mental_model_with_llm`) -/

/-- The mental-model dictionary of `app3.py`.  It always has exactly the
nine keys of `DEFAULT_MM` (the code only ever copies `DEFAULT_MM` and
overwrites existing keys), so it is modelled as a record; field values
are arbitrary Python values, exactly as in the source, where parsed JSON
values are copied in unchecked. -/
structure MMDict where
  user_certainty : PyVal
  model_seen_as_expert : PyVal
  expects_correction : PyVal
  validation_seeking : PyVal
  objectivity_seeking : PyVal
  empathy_expectation : PyVal
  directness : PyVal
  informativeness : PyVal
  assistant_role : PyVal
deriving Repr, DecidableEq

/-- `DEFAULT_MM` from `app3.py` (lines 17-31). -/
def DEFAULT_MM : MMDict :=
  { user_certainty := .num (1/2)
  , model_seen_as_expert := .num (4/5)
  , expects_correction := .bool true
  , validation_seeking := .num (1/2)
  , objectivity_seeking := .num (1/2)
  , empathy_expectation := .num (1/2)
  , directness := .num (1/2)
  , informativeness := .num (7/10)
  , assistant_role := .str "Neutral assistant" }

/-- One iteration of the sanitization loop of
`infer_mental_model_with_llm`: `if k in mm: cleaned[k] = mm[k]`, where
both the membership test and the subscript can raise. -/
def cleanField (mm : PyVal) (k : String) (dflt : PyVal) : Except Unit PyVal := do
  let c ← pyContains mm k
  if c then pyGetItem mm k else pure dflt

/-- The sanitization loop of `infer_mental_model_with_llm` (lines 92-95),
iterating over the keys of `cleaned = DEFAULT_MM.copy()` in insertion
order; any raise aborts the whole loop (the caller catches it). -/
def cleanMM (mm : PyVal) : Except Unit MMDict := do
  let uc ← cleanField mm "user_certainty" DEFAULT_MM.user_certainty
  let ex ← cleanField mm "model_seen_as_expert" DEFAULT_MM.model_seen_as_expert
  let ec ← cleanField mm "expects_correction" DEFAULT_MM.expects_correction
  let vs ← cleanField mm "validation_seeking" DEFAULT_MM.validation_seeking
  let os ← cleanField mm "objectivity_seeking" DEFAULT_MM.objectivity_seeking
  let ee ← cleanField mm "empathy_expectation" DEFAULT_MM.empathy_expectation
  let di ← cleanField mm "directness" DEFAULT_MM.directness
  let io ← cleanField mm "informativeness" DEFAULT_MM.informativeness
  let ar ← cleanField mm "assistant_role" DEFAULT_MM.assistant_role
  pure ⟨uc, ex, ec, vs, os, ee, di, io, ar⟩

/-- `infer_mental_model_with_llm` (lines 57-99) after the external call:
the argument is the result of `json.loads` on the response text (`none`
when the call or the parse raised).  Returns the sanitized mental model
together with the flag of the `st.warning` branch: any exception inside
the `try` falls back to a fresh `DEFAULT_MM.copy()` with a warning. -/
def infer_mental_model_with_llm (parsed : Option PyVal) : MMDict × Bool :=
  match parsed with
  | none => (DEFAULT_MM, true)
  | some mm =>
    match cleanMM mm with
    | .ok cleaned => (cleaned, false)
    | .error _ => (DEFAULT_MM, true)

/-! ## Assumptions (`infer_uncertain_assumptions_with_llm`) -/

/-- One sanitized assumption entry as built at lines 164-168:
`str(item["assumption"])`, the clamped `float(item["probability"])`,
and `str(item.get("evidence", ""))`. -/
structure AEntry where
  assumption : String
  probability : ℚ
  evidence : String
deriving Repr, DecidableEq

/-- The sanitization loop of `infer_uncertain_assumptions_with_llm`
(lines 158-168) over the (already truncated) item list: non-dict items
and items missing the `assumption` or `probability` key are skipped;
otherwise `float(...)` may raise (aborting the whole call), and the
probability is clamped by `max(0.0, min(1.0, prob))`. -/
def assumpLoop (floatFn : String → Except Unit ℚ) :
    List PyVal → List AEntry → Except Unit (List AEntry)
  | [], acc => .ok acc
  | item :: rest, acc =>
    match item with
    | .dict fs =>
      if hasKey fs "assumption" && hasKey fs "probability" then
        match pyFloat floatFn (dictGet fs "probability") with
        | .error e => .error e
        | .ok p =>
          let prob := max 0 (min 1 p)
          assumpLoop floatFn rest
            (acc ++ [{ assumption := pyStr (dictGet fs "assumption")
                     , probability := prob
                     , evidence := pyStr (dictGetD fs "evidence" (.str "")) }])
      else assumpLoop floatFn rest acc
    | _ => assumpLoop floatFn rest acc

/-- `infer_uncertain_assumptions_with_llm` (lines 102-173) after the
external call: the argument is the parsed response (`none` when the call
or `json.loads` raised), plus the string semantics of Python `float`.
Returns the value under the `"assumptions"` key of the returned dict,
together with the `st.warning` flag: a non-dict response, a missing
`"assumptions"` key, a non-list value there (the explicit `ValueError`),
or any raise inside the loop is caught and yields an empty list with a
warning. -/
def infer_uncertain_assumptions_with_llm
    (floatFn : String → Except Unit ℚ) (parsed : Option PyVal) :
    List AEntry × Bool :=
  match parsed with
  | none => ([], true)
  | some data =>
    match data with
    | .dict fs =>
      if hasKey fs "assumptions" then
        match dictGet fs "assumptions" with
        | .list items =>
          match assumpLoop floatFn (items.take 10) [] with
          | .ok cleaned => (cleaned, false)
          | .error _ => ([], true)
        | _ => ([], true)
      else ([], true)
    | _ => ([], true)

/-! ## Session state, controls and the lock state machine -/

/-- One chat message (`{"role": ..., "content": ...}`). -/
structure Message where
  role : String
  content : String
deriving Repr, DecidableEq

/-- One entry of `st.session_state.assumptions_history` (lines 384-388). -/
structure HistEntry where
  turn_index : Nat
  timestamp : String
  assumptions : List AEntry
deriving Repr, DecidableEq

/-- One entry of `st.session_state.turn_logs` as appended by `log_turn`
(lines 330-342). -/
structure TurnLog where
  turn_index : Nat
  timestamp : String
  mm_locked : Bool
  mental_model : MMDict
  mental_model_source : String
  assumptions : List AEntry
  user_message : String
  assistant_message : String
  combined_prompt : String
  conversation_so_far : List Message
deriving Repr, DecidableEq

/-- The per-session mutable state held in `st.session_state`
(lines 33-52). -/
structure SessionState where
  messages : List Message
  mm_values : MMDict
  turn_index : Nat
  turn_logs : List TurnLog
  mm_locked : Bool
  assumptions_latest : Option (List AEntry)
  assumptions_history : List HistEntry
deriving Repr, DecidableEq

/-- The session-state initialization (lines 33-52). -/
def initialState : SessionState :=
  { messages := []
  , mm_values := DEFAULT_MM
  , turn_index := 0
  , turn_logs := []
  , mm_locked := false
  , assumptions_latest := none
  , assumptions_history := [] }

/-- The nine sidebar control values as returned by the rendering layer
(lines 193-211): sliders yield floats, the checkbox a boolean, the
selectbox one of the role strings. -/
structure Controls where
  user_certainty : ℚ
  model_seen_as_expert : ℚ
  expects_correction : Bool
  validation_seeking : ℚ
  objectivity_seeking : ℚ
  empathy_expectation : ℚ
  directness : ℚ
  informativeness : ℚ
  assistant_role : String
deriving Repr, DecidableEq

/-- `current_from_controls` (lines 215-225): the just-submitted control
values as a mental-model dict. -/
def current_from_controls (c : Controls) : MMDict :=
  { user_certainty := .num c.user_certainty
  , model_seen_as_expert := .num c.model_seen_as_expert
  , expects_correction := .bool c.expects_correction
  , validation_seeking := .num c.validation_seeking
  , objectivity_seeking := .num c.objectivity_seeking
  , empathy_expectation := .num c.empathy_expectation
  , directness := .num c.directness
  , informativeness := .num c.informativeness
  , assistant_role := .str c.assistant_role }

/-- The per-field comparison of the lock check (lines 228-237): when
both the control value and the stored value are `isinstance (int, float)`
they are compared against the `1e-6` tolerance, otherwise by Python
inequality. -/
def fieldDiffers (v old : PyVal) : Bool :=
  if pyIsNumeric old && pyIsNumeric v then
    decide (|((asNum v).getD 0) - ((asNum old).getD 0)| > 1/1000000)
  else
    ! pyEqVal v old

/-- The `changed` flag of the lock-check loop (lines 227-237): the loop
breaks at the first differing field, which is the disjunction of the
per-field comparisons over the nine keys in dict order. -/
def controlsChanged (c : Controls) (old : MMDict) : Bool :=
  let cur := current_from_controls c
  fieldDiffers cur.user_certainty old.user_certainty ||
  fieldDiffers cur.model_seen_as_expert old.model_seen_as_expert ||
  fieldDiffers cur.expects_correction old.expects_correction ||
  fieldDiffers cur.validation_seeking old.validation_seeking ||
  fieldDiffers cur.objectivity_seeking old.objectivity_seeking ||
  fieldDiffers cur.empathy_expectation old.empathy_expectation ||
  fieldDiffers cur.directness old.directness ||
  fieldDiffers cur.informativeness old.informativeness ||
  fieldDiffers cur.assistant_role old.assistant_role

/-- The module-level lock check (lines 214-243), run on every render
cycle before the chat input is handled: skipped on the first turn
(`turn_index == 0`) and once locked; otherwise any differing control
locks the model and replaces the stored values wholesale with the
just-submitted control values. -/
def lockCheck (s : SessionState) (c : Controls) : SessionState :=
  if s.turn_index ≠ 0 ∧ s.mm_locked = false then
    if controlsChanged c s.mm_values then
      { s with mm_locked := true, mm_values := current_from_controls c }
    else s
  else s

/-! ## Prompt composition and turn execution -/

/-- `build_history_text` (lines 299-304). -/
def build_history_text (ms : List Message) : String :=
  String.intercalate "\n"
    (ms.map (fun m =>
      (if m.role = "user" then "User" else "Assistant") ++ ": " ++ m.content))

/-- Fixed-point rendering of a rational to two decimals, modelling the
`:.2f` format of a Python float (ties of the binary float rounding are
approximated by round-half-up). -/
def fix2 (q : ℚ) : String :=
  let n : ℤ := round (q * 100)
  let sign := if n < 0 then "-" else ""
  let m := n.natAbs
  let r := m % 100
  sign ++ toString (m / 100) ++ "." ++ (if r < 10 then "0" else "") ++ toString r

/-- The `{value:.2f}` format slot: formats numbers (booleans count as
ints, `f"{True:.2f}"` is `1.00`), raises for every other value. -/
def pyFmt2 : PyVal → Except Unit String
  | .num q => .ok (fix2 q)
  | .bool b => .ok (fix2 (if b then 1 else 0))
  | _ => .error ()

/-- `build_mental_model_preamble` (lines 306-328).  The seven `:.2f`
slots raise a format error when the stored value is not numeric (which
can happen after a rogue inference response); the plain slots use
`str`.  Slots are evaluated in source order. -/
def build_mental_model_preamble (mm : MMDict) : Except Unit String := do
  let uc ← pyFmt2 mm.user_certainty
  let ex ← pyFmt2 mm.model_seen_as_expert
  let vs ← pyFmt2 mm.validation_seeking
  let os ← pyFmt2 mm.objectivity_seeking
  let ee ← pyFmt2 mm.empathy_expectation
  let di ← pyFmt2 mm.directness
  let io ← pyFmt2 mm.informativeness
  pure ("\nYou are an assistant responding to a user. Before answering, read this\ndescription of the user\x27s inferred conversational expectations and goals.\nUse it to shape your tone and structure, but do NOT restate it explicitly.\n\n[Epistemic stance]\n- User certainty (0–1): " ++ uc
    ++ "\n- User treats assistant as expert (0–1): " ++ ex
    ++ "\n- Expects explicit correction: " ++ pyStr mm.expects_correction
    ++ "\n\n[Relational goals]\n- Validation seeking (0–1): " ++ vs
    ++ "\n- Objectivity seeking (0–1): " ++ os
    ++ "\n- Empathy expectation (0–1): " ++ ee
    ++ "\n\n[Style]\n- Directness (0–1): " ++ di
    ++ "\n- Informativeness (0–1): " ++ io
    ++ "\n\n[Role]\n- Assistant role: " ++ pyStr mm.assistant_role
    ++ "\n")

/-- The `combined_prompt` f-string (lines 392-398). -/
def mkCombinedPrompt (preamble convo : String) : String :=
  preamble ++ "\n\nConversation so far:\n" ++ convo ++
    "\n\nNow respond as the assistant to the last user message in a way that respects the mental model above.\nAssistant:"

/-- The three external LLM round-trips, as oracles from the variable
payload the code sends to the parsed (for the two inferencers) or raw
(for the response call) result; `Option`/`Except` failures stand for a
raising call or a failed `json.loads`.  `floatFn` is the string-literal
semantics of Python `float`. -/
structure Oracles where
  mmOracle : String → Option PyVal
  assumpOracle : String → Option PyVal
  floatFn : String → Except Unit ℚ
  respOracle : String → Except Unit String

/-- Observable effects of one chat-input handling, threaded explicitly:
which external calls were dispatched (with their payloads), the
mental-model value and source tag used this turn, whether the missing
API key error was shown, and whether the script raised mid-turn. -/
structure TurnOutcome where
  apiErrorShown : Bool
  mmUsed : Option MMDict
  mmSource : Option String
  mmCalls : List String
  assumpCalls : List String
  respCalls : List String
  reply : Option String
  raised : Bool
deriving Repr, DecidableEq

/-- The outcome of a render cycle that handled no chat input. -/
def noTurn : TurnOutcome :=
  { apiErrorShown := false, mmUsed := none, mmSource := none
  , mmCalls := [], assumpCalls := [], respCalls := [], reply := none
  , raised := false }

/-- Turn execution for a submitted message with a non-empty API key
(lines 353-421): append the user message; infer or reuse the mental
model (lines 360-374); always infer assumptions from the full transcript
and record them (lines 376-388); compose the prompt (lines 390-398);
call the response model unguarded (lines 400-406) — a raise there (or in
the preamble format) aborts the script with all prior session-state
mutations kept; on success append the reply, increment the turn counter
and append the log entry (lines 408-421). -/
def runTurn (o : Oracles) (s : SessionState) (u : String) (now : String) :
    SessionState × TurnOutcome :=
  let s1 : SessionState := { s with messages := s.messages ++ [⟨"user", u⟩] }
  let mmStep : MMDict × String × SessionState × List String :=
    if s.turn_index = 0 then
      let mv := (infer_mental_model_with_llm (o.mmOracle u)).1
      (mv, "inferred_first_turn", { s1 with mm_values := mv }, [u])
    else if s1.mm_locked then
      (s1.mm_values, "user_locked", s1, [])
    else
      let mv := (infer_mental_model_with_llm (o.mmOracle u)).1
      (mv, "inferred_unlocked", { s1 with mm_values := mv }, [u])
  match mmStep with
  | (mm_vals, mm_source, s2, mmCalls) =>
    let convo := build_history_text s2.messages
    let aj := (infer_uncertain_assumptions_with_llm o.floatFn (o.assumpOracle convo)).1
    let s3 : SessionState :=
      { s2 with assumptions_latest := some aj
              , assumptions_history :=
                  s2.assumptions_history ++
                    [{ turn_index := s2.turn_index + 1, timestamp := now
                     , assumptions := aj }] }
    match build_mental_model_preamble mm_vals with
    | .error _ =>
      (s3, { apiErrorShown := false, mmUsed := some mm_vals
           , mmSource := some mm_source, mmCalls := mmCalls
           , assumpCalls := [convo], respCalls := [], reply := none
           , raised := true })
    | .ok preamble =>
      let prompt := mkCombinedPrompt preamble convo
      match o.respOracle prompt with
      | .error _ =>
        (s3, { apiErrorShown := false, mmUsed := some mm_vals
             , mmSource := some mm_source, mmCalls := mmCalls
             , assumpCalls := [convo], respCalls := [prompt], reply := none
             , raised := true })
      | .ok reply =>
        let s4 : SessionState :=
          { s3 with messages := s3.messages ++ [⟨"assistant", reply⟩]
                  , turn_index := s3.turn_index + 1 }
        let entry : TurnLog :=
          { turn_index := s4.turn_index, timestamp := now
          , mm_locked := s4.mm_locked, mental_model := mm_vals
          , mental_model_source := mm_source, assumptions := aj
          , user_message := u, assistant_message := reply
          , combined_prompt := prompt, conversation_so_far := s4.messages }
        let s5 : SessionState := { s4 with turn_logs := s4.turn_logs ++ [entry] }
        (s5, { apiErrorShown := false, mmUsed := some mm_vals
             , mmSource := some mm_source, mmCalls := mmCalls
             , assumpCalls := [convo], respCalls := [prompt]
             , reply := some reply, raised := false })

/-- The chat-input handling stage (lines 347-358): nothing happens
without a submitted message; with a message but an empty API key an
error is shown and the turn aborts before any external call, mutating
nothing; otherwise the turn runs. -/
def chatStep (o : Oracles) (s : SessionState)
    (api_key : String) (user_input : Option String) (now : String) :
    SessionState × TurnOutcome :=
  match user_input with
  | none => (s, noTurn)
  | some u =>
    if api_key = "" then (s, { noTurn with apiErrorShown := true })
    else runTurn o s u now

/-- One full render cycle of the script: the module-level lock check
(lines 214-243) followed by the chat-input handling (lines 347-421). -/
def renderCycle (o : Oracles) (s : SessionState)
    (c : Controls) (api_key : String) (user_input : Option String)
    (now : String) : SessionState × TurnOutcome :=
  chatStep o (lockCheck s c) api_key user_input now

/-- Is a stored probability field a number within `[0,1]`? -/
def probInRange (v : PyVal) : Bool :=
  match v with
  | .num q => decide (0 ≤ q) && decide (q ≤ 1)
  | _ => false

/-- Are all seven probability fields of a mental model within `[0,1]`? -/
def mmProbsInRange (d : MMDict) : Bool :=
  probInRange d.user_certainty && probInRange d.model_seen_as_expert &&
  probInRange d.validation_seeking && probInRange d.objectivity_seeking &&
  probInRange d.empathy_expectation && probInRange d.directness &&
  probInRange d.informativeness

/-- Does Python `float` accept the probability of this item?  `true` also
for items the loop skips (non-dicts and items missing a key), since no
coercion is attempted for them. -/
def itemCoercible (floatFn : String → Except Unit ℚ) (item : PyVal) : Bool :=
  match item with
  | .dict fs =>
    if hasKey fs "assumption" && hasKey fs "probability" then
      match pyFloat floatFn (dictGet fs "probability") with
      | .ok _ => true
      | .error _ => false
    else true
  | _ => true

/-- Follows the amended-claim wording: an item is kept exactly when it is
an object carrying both the `assumption` and the `probability` key and
its probability coerces, in which case the strings are coerced and the
probability clamped. -/
def specKeptEntry (floatFn : String → Except Unit ℚ) (item : PyVal) : Option AEntry :=
  match item with
  | .dict fs =>
    if hasKey fs "assumption" && hasKey fs "probability" then
      match pyFloat floatFn (dictGet fs "probability") with
      | .ok p => some { assumption := pyStr (dictGet fs "assumption")
                      , probability := max 0 (min 1 p)
                      , evidence := pyStr (dictGetD fs "evidence" (.str "")) }
      | .error _ => none
    else none
  | _ => none

/-- The inputs one render cycle consumes from the user and the clock. -/
structure CycleInput where
  controls : Controls
  api_key : String
  user_input : Option String
  now : String

/-- A whole session: fold the render cycles over the initial state. -/
def runSession (o : Oracles) (inputs : List CycleInput) : SessionState :=
  inputs.foldl
    (fun s i => (renderCycle o s i.controls i.api_key i.user_input i.now).1)
    initialState

/-! ## Theorems -/

/-- Unfolding lemma for `Except` bind against a successful result. -/
theorem exceptBind_ok {α β : Type} {x : Except Unit α} {f : α → Except Unit β} {b : β} :
    (x >>= f) = .ok b ↔ ∃ a, x = .ok a ∧ f a = .ok b := by
  cases x <;> simp [Bind.bind, Except.bind]

/-- A successful field-sanitization step either keeps the default or
returns exactly the value looked up in the response. -/
theorem cleanField_spec {mm : PyVal} {k : String} {dflt v : PyVal}
    (h : cleanField mm k dflt = .ok v) :
    v = dflt ∨ pyGetItem mm k = .ok v := by
  unfold cleanField at h
  cases hc : pyContains mm k with
  | error e => rw [hc] at h; simp [Bind.bind, Except.bind] at h
  | ok c =>
    rw [hc] at h
    simp only [Bind.bind, Except.bind] at h
    cases c with
    | true => exact Or.inr h
    | false => simp [pure, Except.pure] at h; exact Or.inl h.symm

/-- A successful run of the sanitization loop leaves every field either
at its default or at exactly the value the response supplies for it. -/
theorem cleanMM_spec {mm : PyVal} {d : MMDict} (h : cleanMM mm = .ok d) :
    (d.user_certainty = DEFAULT_MM.user_certainty ∨
      pyGetItem mm "user_certainty" = .ok d.user_certainty) ∧
    (d.model_seen_as_expert = DEFAULT_MM.model_seen_as_expert ∨
      pyGetItem mm "model_seen_as_expert" = .ok d.model_seen_as_expert) ∧
    (d.expects_correction = DEFAULT_MM.expects_correction ∨
      pyGetItem mm "expects_correction" = .ok d.expects_correction) ∧
    (d.validation_seeking = DEFAULT_MM.validation_seeking ∨
      pyGetItem mm "validation_seeking" = .ok d.validation_seeking) ∧
    (d.objectivity_seeking = DEFAULT_MM.objectivity_seeking ∨
      pyGetItem mm "objectivity_seeking" = .ok d.objectivity_seeking) ∧
    (d.empathy_expectation = DEFAULT_MM.empathy_expectation ∨
      pyGetItem mm "empathy_expectation" = .ok d.empathy_expectation) ∧
    (d.directness = DEFAULT_MM.directness ∨
      pyGetItem mm "directness" = .ok d.directness) ∧
    (d.informativeness = DEFAULT_MM.informativeness ∨
      pyGetItem mm "informativeness" = .ok d.informativeness) ∧
    (d.assistant_role = DEFAULT_MM.assistant_role ∨
      pyGetItem mm "assistant_role" = .ok d.assistant_role) := by
  unfold cleanMM at h
  simp only [exceptBind_ok] at h
  obtain ⟨uc, h1, ex, h2, ec, h3, vs, h4, os, h5, ee, h6, di, h7, io, h8, ar, h9, hp⟩ := h
  simp only [pure, Except.pure, Except.ok.injEq] at hp
  subst hp
  exact ⟨cleanField_spec h1, cleanField_spec h2, cleanField_spec h3,
    cleanField_spec h4, cleanField_spec h5, cleanField_spec h6,
    cleanField_spec h7, cleanField_spec h8, cleanField_spec h9⟩

/-- C1 (counterexample): the Mental-Model Inferencer copies supplied
numeric values verbatim without range checking, so a parsed response
assigning `user_certainty = 2.0` yields a mental model whose probability
fields do not all lie within `[0,1]`, contradicting the claim that they
do regardless of the supplied numeric values. -/
theorem C1_counterexample :
    (infer_mental_model_with_llm (some (.dict [("user_certainty", .num 2)]))).1.user_certainty
        = .num 2 ∧
    mmProbsInRange
      (infer_mental_model_with_llm (some (.dict [("user_certainty", .num 2)]))).1 = false := by
  exact ⟨rfl, rfl⟩

/-- C1 (amended): every probability field of the mental model handed to
the session is either the documented default for that field (which lies
in `[0,1]`) or exactly the value the parsed response supplies for that
key, copied verbatim with no range check — so the fields stay within
`[0,1]` only when the supplied values do. -/
theorem C1_mm_fields_default_or_verbatim (parsed : Option PyVal) :
    (mmProbsInRange DEFAULT_MM = true) ∧
    ((infer_mental_model_with_llm parsed).1.user_certainty = DEFAULT_MM.user_certainty ∨
      ∃ v, parsed = some v ∧
        pyGetItem v "user_certainty" = .ok (infer_mental_model_with_llm parsed).1.user_certainty) ∧
    ((infer_mental_model_with_llm parsed).1.model_seen_as_expert = DEFAULT_MM.model_seen_as_expert ∨
      ∃ v, parsed = some v ∧
        pyGetItem v "model_seen_as_expert" = .ok (infer_mental_model_with_llm parsed).1.model_seen_as_expert) ∧
    ((infer_mental_model_with_llm parsed).1.validation_seeking = DEFAULT_MM.validation_seeking ∨
      ∃ v, parsed = some v ∧
        pyGetItem v "validation_seeking" = .ok (infer_mental_model_with_llm parsed).1.validation_seeking) ∧
    ((infer_mental_model_with_llm parsed).1.objectivity_seeking = DEFAULT_MM.objectivity_seeking ∨
      ∃ v, parsed = some v ∧
        pyGetItem v "objectivity_seeking" = .ok (infer_mental_model_with_llm parsed).1.objectivity_seeking) ∧
    ((infer_mental_model_with_llm parsed).1.empathy_expectation = DEFAULT_MM.empathy_expectation ∨
      ∃ v, parsed = some v ∧
        pyGetItem v "empathy_expectation" = .ok (infer_mental_model_with_llm parsed).1.empathy_expectation) ∧
    ((infer_mental_model_with_llm parsed).1.directness = DEFAULT_MM.directness ∨
      ∃ v, parsed = some v ∧
        pyGetItem v "directness" = .ok (infer_mental_model_with_llm parsed).1.directness) ∧
    ((infer_mental_model_with_llm parsed).1.informativeness = DEFAULT_MM.informativeness ∨
      ∃ v, parsed = some v ∧
        pyGetItem v "informativeness" = .ok (infer_mental_model_with_llm parsed).1.informativeness) := by
  refine ⟨by norm_num [mmProbsInRange, probInRange, DEFAULT_MM], ?_⟩
  cases parsed with
  | none =>
    simp [infer_mental_model_with_llm]
  | some mm =>
    cases hc : cleanMM mm with
    | error e =>
      simp [infer_mental_model_with_llm, hc]
    | ok d =>
      have hs := cleanMM_spec hc
      simp only [infer_mental_model_with_llm, hc]
      obtain ⟨p1, p2, _, p4, p5, p6, p7, p8, _⟩ := hs
      refine ⟨?_, ?_, ?_, ?_, ?_, ?_, ?_⟩ <;>
        first
          | exact p1.imp id (fun h => ⟨mm, rfl, h⟩)
          | exact p2.imp id (fun h => ⟨mm, rfl, h⟩)
          | exact p4.imp id (fun h => ⟨mm, rfl, h⟩)
          | exact p5.imp id (fun h => ⟨mm, rfl, h⟩)
          | exact p6.imp id (fun h => ⟨mm, rfl, h⟩)
          | exact p7.imp id (fun h => ⟨mm, rfl, h⟩)
          | exact p8.imp id (fun h => ⟨mm, rfl, h⟩)

/-- On every non-dict value a string subscript raises. -/
theorem pyGetItem_nonDict {v : PyVal} (hnd : ∀ fs, v ≠ .dict fs) (k : String) :
    pyGetItem v k = .error () := by
  cases v with
  | dict fs => exact absurd rfl (hnd fs)
  | null => rfl
  | bool b => rfl
  | num q => rfl
  | str s => rfl
  | list xs => rfl

/-- On a non-dict response value the sanitization loop either raises or
returns the untouched default mental model. -/
theorem cleanMM_nonDict {v : PyVal} (hnd : ∀ fs, v ≠ .dict fs) :
    cleanMM v = .error () ∨ cleanMM v = .ok DEFAULT_MM := by
  have hf : ∀ k dflt, cleanField v k dflt = .error () ∨ cleanField v k dflt = .ok dflt := by
    intro k dflt
    unfold cleanField
    cases hvv : pyContains v k with
    | error e => left; simp [hvv, Bind.bind, Except.bind]
    | ok m =>
      cases m with
      | false => right; simp [hvv, Bind.bind, Except.bind, pure, Except.pure]
      | true => left; simp [hvv, Bind.bind, Except.bind, pyGetItem_nonDict hnd]
  unfold cleanMM
  simp only [Bind.bind]
  rcases hf "user_certainty" DEFAULT_MM.user_certainty with h1 | h1 <;>
    simp only [h1, Except.bind]
  · exact Or.inl trivial
  rcases hf "model_seen_as_expert" DEFAULT_MM.model_seen_as_expert with h2 | h2 <;>
    simp only [h2, Except.bind]
  · exact Or.inl trivial
  rcases hf "expects_correction" DEFAULT_MM.expects_correction with h3 | h3 <;>
    simp only [h3, Except.bind]
  · exact Or.inl trivial
  rcases hf "validation_seeking" DEFAULT_MM.validation_seeking with h4 | h4 <;>
    simp only [h4, Except.bind]
  · exact Or.inl trivial
  rcases hf "objectivity_seeking" DEFAULT_MM.objectivity_seeking with h5 | h5 <;>
    simp only [h5, Except.bind]
  · exact Or.inl trivial
  rcases hf "empathy_expectation" DEFAULT_MM.empathy_expectation with h6 | h6 <;>
    simp only [h6, Except.bind]
  · exact Or.inl trivial
  rcases hf "directness" DEFAULT_MM.directness with h7 | h7 <;>
    simp only [h7, Except.bind]
  · exact Or.inl trivial
  rcases hf "informativeness" DEFAULT_MM.informativeness with h8 | h8 <;>
    simp only [h8, Except.bind]
  · exact Or.inl trivial
  rcases hf "assistant_role" DEFAULT_MM.assistant_role with h9 | h9 <;>
    simp only [h9, Except.bind]
  · exact Or.inl trivial
  exact Or.inr rfl

/-- C5 (counterexample): the response text `[]` is valid JSON but not an
object; the inferencer returns the full default mental model, yet no
exception is raised and no warning is surfaced (the warning flag is
`false`), contradicting the claim that a warning accompanies every
non-object response. -/
theorem C5_counterexample :
    infer_mental_model_with_llm (some (.list [])) = (DEFAULT_MM, false) := rfl

/-- C5 (amended): an invalid-JSON response, or any exception while
processing the parsed value, is caught and yields a fresh full default
mental model together with a warning; a parsed non-object value always
yields the full default mental model, but silently (without a warning)
when no processing step raises; the defaults have every probability
field inside its declared range. -/
theorem C5_invalid_or_nonobject_falls_back_to_defaults (parsed : Option PyVal) :
    (parsed = none → infer_mental_model_with_llm parsed = (DEFAULT_MM, true)) ∧
    (∀ v, parsed = some v → cleanMM v = .error () →
      infer_mental_model_with_llm parsed = (DEFAULT_MM, true)) ∧
    (∀ v, parsed = some v → (∀ fs, v ≠ .dict fs) →
      (infer_mental_model_with_llm parsed).1 = DEFAULT_MM) ∧
    mmProbsInRange DEFAULT_MM = true := by
  refine ⟨?_, ?_, ?_, by norm_num [mmProbsInRange, probInRange, DEFAULT_MM]⟩
  · rintro rfl; rfl
  · rintro v rfl he
    simp [infer_mental_model_with_llm, he]
  · rintro v rfl hnd
    rcases cleanMM_nonDict hnd with h | h <;>
      simp [infer_mental_model_with_llm, h]

/-- C5 (witness): the amended theorem applied to an invalid-JSON
response: the inferencer returns the defaults with a warning. -/
theorem C5_witness :
    infer_mental_model_with_llm none = (DEFAULT_MM, true) :=
  (C5_invalid_or_nonobject_falls_back_to_defaults none).1 rfl

/-- Invariant of the assumption-sanitization loop: a successful run adds
at most one entry per item, and every entry beyond the accumulator has a
clamped probability. -/
theorem assumpLoop_spec (floatFn : String → Except Unit ℚ) :
    ∀ (items : List PyVal) (acc l : List AEntry),
      assumpLoop floatFn items acc = .ok l →
      l.length ≤ acc.length + items.length ∧
      (∀ e ∈ l, e ∈ acc ∨ (0 ≤ e.probability ∧ e.probability ≤ 1)) := by
  intro items
  induction items with
  | nil =>
    intro acc l h
    simp only [assumpLoop, Except.ok.injEq] at h
    subst h
    exact ⟨by simp, fun e he => Or.inl he⟩
  | cons item rest ih =>
    intro acc l h
    have step : assumpLoop floatFn rest acc = .ok l →
        l.length ≤ acc.length + (rest.length + 1) ∧
        (∀ e ∈ l, e ∈ acc ∨ (0 ≤ e.probability ∧ e.probability ≤ 1)) := by
      intro hh
      obtain ⟨hl, hm⟩ := ih acc l hh
      exact ⟨by omega, hm⟩
    cases item with
    | null => exact step h
    | bool b => exact step h
    | num q => exact step h
    | str s => exact step h
    | list xs => exact step h
    | dict fs =>
      simp only [assumpLoop] at h
      by_cases hk : (hasKey fs "assumption" && hasKey fs "probability") = true
      · rw [if_pos hk] at h
        cases hp : pyFloat floatFn (dictGet fs "probability") with
        | error e => rw [hp] at h; exact absurd h (by simp)
        | ok p =>
          rw [hp] at h
          obtain ⟨hl, hm⟩ := ih _ _ h
          refine ⟨by simp only [List.length_append, List.length_singleton,
            List.length_cons, List.length_nil] at hl ⊢; omega, ?_⟩
          intro e he
          rcases hm e he with hin | hr
          · rcases List.mem_append.mp hin with h1 | h2
            · exact Or.inl h1
            · right
              simp only [List.mem_singleton] at h2
              subst h2
              exact ⟨le_max_left _ _, max_le (by norm_num) (min_le_left _ _)⟩
          · exact Or.inr hr
      · rw [if_neg hk] at h
        exact step h

/-- Every result of the assumption inferencer has at most ten entries,
each with probability clamped into `[0,1]`. -/
theorem infer_assumps_spec (floatFn : String → Except Unit ℚ) (parsed : Option PyVal) :
    (infer_uncertain_assumptions_with_llm floatFn parsed).1.length ≤ 10 ∧
    (∀ e ∈ (infer_uncertain_assumptions_with_llm floatFn parsed).1,
      0 ≤ e.probability ∧ e.probability ≤ 1) := by
  cases parsed with
  | none => simp [infer_uncertain_assumptions_with_llm]
  | some data =>
    cases data with
    | dict fs =>
      simp only [infer_uncertain_assumptions_with_llm]
      by_cases hk : hasKey fs "assumptions" = true
      · rw [if_pos hk]
        cases hv : dictGet fs "assumptions" with
        | list items =>
          cases hl : assumpLoop floatFn (items.take 10) [] with
          | ok cleaned =>
            simp only [hl]
            obtain ⟨h1, h2⟩ := assumpLoop_spec floatFn _ _ _ hl
            refine ⟨?_, ?_⟩
            · show cleaned.length ≤ 10
              have h3 : (items.take 10).length ≤ 10 := by
                simp [List.length_take]
              simp only [List.length_nil, Nat.zero_add] at h1
              omega
            · intro e he
              have he2 : e ∈ cleaned := he
              rcases h2 e he2 with hin | hr
              · exact absurd hin (List.not_mem_nil e)
              · exact hr
          | error err => simp [hl]
        | null => simp
        | bool b => simp
        | num q => simp
        | str s => simp
        | dict gs => simp
      · rw [if_neg hk]; simp
    | null => simp [infer_uncertain_assumptions_with_llm]
    | bool b => simp [infer_uncertain_assumptions_with_llm]
    | num q => simp [infer_uncertain_assumptions_with_llm]
    | str s => simp [infer_uncertain_assumptions_with_llm]
    | list xs => simp [infer_uncertain_assumptions_with_llm]

/-- C6: every Assumption-Inferencer output has at most ten entries
(intake is capped at the first ten response items), and every retained
probability is clamped into `[0,1]`; in particular a supplied value of
`1.5` comes out as `1.0` and `-0.3` as `0.0`, out-of-range values being
clamped rather than rejected. -/
theorem C6_assumptions_capped_and_clamped
    (floatFn : String → Except Unit ℚ) (parsed : Option PyVal) :
    (infer_uncertain_assumptions_with_llm floatFn parsed).1.length ≤ 10 ∧
    (∀ e ∈ (infer_uncertain_assumptions_with_llm floatFn parsed).1,
      0 ≤ e.probability ∧ e.probability ≤ 1) ∧
    (infer_uncertain_assumptions_with_llm floatFn
        (some (.dict [("assumptions", .list
          [ .dict [("assumption", .str "a"), ("probability", .num (3/2))]
          , .dict [("assumption", .str "b"), ("probability", .num (-(3/10)))]])]))).1
      = [ { assumption := "a", probability := 1, evidence := "" }
        , { assumption := "b", probability := 0, evidence := "" } ] := by
  obtain ⟨h1, h2⟩ := infer_assumps_spec floatFn parsed
  refine ⟨h1, h2, ?_⟩
  simp [infer_uncertain_assumptions_with_llm, assumpLoop, PyVal.hasKey,
    PyVal.dictGet, PyVal.dictGetD, PyVal.dlookup, PyVal.pyFloat, PyVal.pyStr]
  constructor <;> norm_num [max_eq_right, min_eq_left]

/-- A key that the membership test rejects is absent from lookups too. -/
theorem dlookup_eq_none_of_not_hasKey {fs : List (String × PyVal)} {k : String}
    (h : hasKey fs k = false) : dlookup fs k = none := by
  unfold hasKey at h
  rw [List.any_eq_false] at h
  unfold dlookup
  have hnone : fs.reverse.find? (fun p => p.1 = k) = none :=
    List.find?_eq_none.mpr (fun p hp => h p (List.mem_reverse.mp hp))
  rw [hnone]
  rfl

/-- When every item coerces, the loop completes and keeps exactly the
spec-described entries, in order, dropping the rest. -/
theorem assumpLoop_ok_of_coercible (floatFn : String → Except Unit ℚ) :
    ∀ (items : List PyVal),
      (∀ item ∈ items, itemCoercible floatFn item = true) →
      ∀ acc, assumpLoop floatFn items acc
        = .ok (acc ++ items.filterMap (specKeptEntry floatFn)) := by
  intro items
  induction items with
  | nil => intro _ acc; simp [assumpLoop]
  | cons item rest ih =>
    intro hall acc
    have hrest : ∀ x ∈ rest, itemCoercible floatFn x = true :=
      fun x hx => hall x (List.mem_cons_of_mem item hx)
    have hitem : itemCoercible floatFn item = true := hall item (List.mem_cons_self item rest)
    cases item with
    | dict fs =>
      simp only [assumpLoop]
      by_cases hk : (hasKey fs "assumption" && hasKey fs "probability") = true
      · rw [if_pos hk]
        split
        · next e heq => exact absurd hitem (by simp [itemCoercible, hk, heq])
        · next p heq =>
            rw [ih hrest, List.filterMap_cons]
            have hsk : specKeptEntry floatFn (.dict fs)
                = some { assumption := pyStr (dictGet fs "assumption")
                       , probability := max 0 (min 1 p)
                       , evidence := pyStr (dictGetD fs "evidence" (.str "")) } := by
              simp [specKeptEntry, hk, heq]
            rw [hsk]
            simp
      · rw [if_neg hk, ih hrest, List.filterMap_cons]
        have hsk : specKeptEntry floatFn (.dict fs) = none := by
          simp [specKeptEntry, hk]
        rw [hsk]
    | null => rw [List.filterMap_cons]; exact ih hrest acc
    | bool b => rw [List.filterMap_cons]; exact ih hrest acc
    | num q => rw [List.filterMap_cons]; exact ih hrest acc
    | str s => rw [List.filterMap_cons]; exact ih hrest acc
    | list xs => rw [List.filterMap_cons]; exact ih hrest acc

/-- If any item in the list fails coercion, the whole loop raises. -/
theorem assumpLoop_err_of_uncoercible (floatFn : String → Except Unit ℚ) :
    ∀ (items : List PyVal),
      (∃ item ∈ items, itemCoercible floatFn item = false) →
      ∀ acc, assumpLoop floatFn items acc = .error () := by
  intro items
  induction items with
  | nil => rintro ⟨item, hmem, _⟩; exact absurd hmem (List.not_mem_nil item)
  | cons item rest ih =>
    rintro ⟨bad, hmem, hbad⟩ acc
    rcases List.mem_cons.mp hmem with heq | hrest
    · subst heq
      cases bad with
      | dict fs =>
        simp only [assumpLoop]
        by_cases hk : (hasKey fs "assumption" && hasKey fs "probability") = true
        · rw [if_pos hk]
          split
          · next e heq2 => cases e; rfl
          · next p heq2 => exact absurd hbad (by simp [itemCoercible, hk, heq2])
        · exact absurd hbad (by simp [itemCoercible, hk])
      | null => exact absurd hbad (by simp [itemCoercible])
      | bool b => exact absurd hbad (by simp [itemCoercible])
      | num q => exact absurd hbad (by simp [itemCoercible])
      | str s => exact absurd hbad (by simp [itemCoercible])
      | list xs => exact absurd hbad (by simp [itemCoercible])
    · have hres := ih ⟨bad, hrest, hbad⟩
      cases item with
      | dict fs =>
        simp only [assumpLoop]
        by_cases hk : (hasKey fs "assumption" && hasKey fs "probability") = true
        · rw [if_pos hk]
          split
          · next e heq2 => cases e; rfl
          · next p heq2 => exact hres _
        · rw [if_neg hk]; exact hres acc
      | null => exact hres acc
      | bool b => exact hres acc
      | num q => exact hres acc
      | str s => exact hres acc
      | list xs => exact hres acc

/-- C7 (counterexample): two divergences from the claim.  First, an
entry whose `probability` is present but `null` makes `float(...)`
raise, and the whole call returns the empty list even though the top
level parsed as an object with a list under the fixed key — so an empty
result does not only arise from top-level parse/shape failure.  Second,
an entry whose `probability` is the string `"1"` (not a number) is kept,
not dropped: only key presence is checked before `float` coercion. -/
theorem C7_counterexample :
    infer_uncertain_assumptions_with_llm (fun _ => .error ())
      (some (.dict [("assumptions", .list
        [.dict [("assumption", .str "a"), ("probability", .null)]])]))
      = ([], true) ∧
    infer_uncertain_assumptions_with_llm (fun s => if s = "1" then .ok 1 else .error ())
      (some (.dict [("assumptions", .list
        [.dict [("assumption", .str "a"), ("probability", .str "1")]])]))
      = ([{ assumption := "a", probability := 1, evidence := "" }], false) :=
  ⟨rfl, rfl⟩

/-- C7 (amended): for a response whose top level is an object with a
list under the fixed key, the first ten entries are processed: when
every processed entry's probability (if examined) coerces under
`float`, the call keeps exactly the entries that are objects with both
the `assumption` and the `probability` key — values coerced, probability
clamped — and silently drops the rest, in order, with no warning; but
when `float` raises on any processed entry, the exception is caught at
the top level and the whole call returns the empty list with a warning
(so an empty result can also arise from a coercion failure).  In either
case nothing propagates past the inferencer. -/
theorem C7_entries_dropped_or_coerced
    (floatFn : String → Except Unit ℚ) (fs : List (String × PyVal)) (items : List PyVal)
    (hk : hasKey fs "assumptions" = true)
    (hv : dictGet fs "assumptions" = .list items) :
    ((∀ item ∈ items.take 10, itemCoercible floatFn item = true) →
      infer_uncertain_assumptions_with_llm floatFn (some (.dict fs))
        = ((items.take 10).filterMap (specKeptEntry floatFn), false)) ∧
    ((∃ item ∈ items.take 10, itemCoercible floatFn item = false) →
      infer_uncertain_assumptions_with_llm floatFn (some (.dict fs))
        = ([], true)) := by
  constructor
  · intro hall
    have hloop := assumpLoop_ok_of_coercible floatFn _ hall []
    simp [infer_uncertain_assumptions_with_llm, hk, hv, hloop]
  · intro hex
    have hloop := assumpLoop_err_of_uncoercible floatFn _ hex []
    simp [infer_uncertain_assumptions_with_llm, hk, hv, hloop]

/-- C7 (witness): the amended theorem applied to a concrete response
with one valid entry, one non-object entry and one entry missing its
probability: exactly the valid entry survives. -/
theorem C7_witness :
    infer_uncertain_assumptions_with_llm (fun _ => .error ())
      (some (.dict [("assumptions", .list
        [ .str "junk"
        , .dict [("assumption", .str "a"), ("probability", .num 1)]
        , .dict [("assumption", .str "b")]])]))
      = ([{ assumption := "a", probability := 1, evidence := "" }], false) := by
  have h := (C7_entries_dropped_or_coerced (fun _ => .error ())
      [("assumptions", .list
        [ .str "junk"
        , .dict [("assumption", .str "a"), ("probability", .num 1)]
        , .dict [("assumption", .str "b")]])]
      [ .str "junk"
      , .dict [("assumption", .str "a"), ("probability", .num 1)]
      , .dict [("assumption", .str "b")]] rfl rfl).1 (by decide)
  rw [h]
  rfl

/-- C10: a processed entry that is an object carrying both the
`assumption` and `probability` keys but no `evidence` key is kept, not
dropped: its evidence field is set to the empty string (the result of
coercing the `.get` default `""`), its assumption value is coerced with
`str`, and its probability is the clamped `float` value.  Stated for any
response list in which the entry appears among the first ten items and
whose processing completes without a raise. -/
theorem C10_entry_without_evidence_kept
    (floatFn : String → Except Unit ℚ) (items : List PyVal)
    (fs : List (String × PyVal)) (q : ℚ)
    (hmem : PyVal.dict fs ∈ items.take 10)
    (hak : hasKey fs "assumption" = true)
    (hpk : hasKey fs "probability" = true)
    (hek : hasKey fs "evidence" = false)
    (hq : pyFloat floatFn (dictGet fs "probability") = .ok q)
    (hall : ∀ item ∈ items.take 10, itemCoercible floatFn item = true) :
    ({ assumption := pyStr (dictGet fs "assumption")
     , probability := max 0 (min 1 q)
     , evidence := "" } : AEntry)
      ∈ (infer_uncertain_assumptions_with_llm floatFn
          (some (.dict [("assumptions", .list items)]))).1 := by
  have hloop := assumpLoop_ok_of_coercible floatFn _ hall []
  simp only [infer_uncertain_assumptions_with_llm]
  have hk0 : hasKey [("assumptions", PyVal.list items)] "assumptions" = true := rfl
  have hv0 : dictGet [("assumptions", PyVal.list items)] "assumptions" = .list items := rfl
  simp only [hk0, if_true, hv0, hloop, List.nil_append]
  apply List.mem_filterMap.mpr
  refine ⟨.dict fs, hmem, ?_⟩
  have hev : dictGetD fs "evidence" (.str "") = .str "" := by
    unfold dictGetD
    rw [dlookup_eq_none_of_not_hasKey hek]
    rfl
  simp [specKeptEntry, hak, hpk, hq, hev, pyStr]

/-- C10 (witness): the theorem applied to a concrete two-item response
whose second entry has no evidence key. -/
theorem C10_witness :
    ({ assumption := "b", probability := 1, evidence := "" } : AEntry)
      ∈ (infer_uncertain_assumptions_with_llm (fun _ => .error ())
          (some (.dict [("assumptions", .list
            [ .dict [("assumption", .str "x"), ("probability", .num 0), ("evidence", .str "seen")]
            , .dict [("assumption", .str "b"), ("probability", .num 1)]])]))).1 := by
  have h := C10_entry_without_evidence_kept (fun _ => .error ())
    [ .dict [("assumption", .str "x"), ("probability", .num 0), ("evidence", .str "seen")]
    , .dict [("assumption", .str "b"), ("probability", .num 1)]]
    [("assumption", .str "b"), ("probability", .num 1)] 1
    (by decide) rfl rfl rfl rfl (by decide)
  simpa using h

/-- C6 (witness): the inferencer applied to a one-entry response whose
probability 2.0 is clamped to 1.0, instantiating both bounds. -/
theorem C6_witness :
    (infer_uncertain_assumptions_with_llm (fun _ => .error ())
      (some (.dict [("assumptions", .list
        [.dict [("assumption", .str "a"), ("probability", .num 2)]])]))).1.length ≤ 10 ∧
    (0 ≤ ({ assumption := "a", probability := 1, evidence := "" } : AEntry).probability ∧
      ({ assumption := "a", probability := 1, evidence := "" } : AEntry).probability ≤ 1) := by
  have h := C6_assumptions_capped_and_clamped (fun _ => .error ())
    (some (.dict [("assumptions", .list
      [.dict [("assumption", .str "a"), ("probability", .num 2)]])]))
  refine ⟨h.1, h.2.1 _ ?_⟩
  have hres : (infer_uncertain_assumptions_with_llm (fun _ => .error ())
      (some (.dict [("assumptions", .list
        [.dict [("assumption", .str "a"), ("probability", .num 2)]])]))).1
      = [{ assumption := "a", probability := 1, evidence := "" }] := rfl
  rw [hres]
  exact List.mem_singleton_self _

/-- The mental-model step of a turn: source tag, call payloads, the
values used and the values stored, in each of the three dispatch
branches (lines 360-374). -/
theorem runTurn_mm_dispatch (o : Oracles) (s : SessionState) (u now : String) :
    (runTurn o s u now).2.mmUsed
      = some (if s.turn_index = 0 then (infer_mental_model_with_llm (o.mmOracle u)).1
          else if s.mm_locked then s.mm_values
          else (infer_mental_model_with_llm (o.mmOracle u)).1) ∧
    (runTurn o s u now).2.mmSource
      = some (if s.turn_index = 0 then "inferred_first_turn"
          else if s.mm_locked then "user_locked" else "inferred_unlocked") ∧
    (runTurn o s u now).2.mmCalls
      = (if s.turn_index = 0 then [u] else if s.mm_locked then [] else [u]) ∧
    (runTurn o s u now).1.mm_values
      = (if s.turn_index = 0 then (infer_mental_model_with_llm (o.mmOracle u)).1
          else if s.mm_locked then s.mm_values
          else (infer_mental_model_with_llm (o.mmOracle u)).1) := by
  unfold runTurn
  split_ifs with h1 h2 <;> dsimp only
  · cases hpre : build_mental_model_preamble (infer_mental_model_with_llm (o.mmOracle u)).1 with
    | error e => simp [hpre, h1]
    | ok pre =>
      cases hresp : o.respOracle (mkCombinedPrompt pre
          (build_history_text (s.messages ++ [⟨"user", u⟩]))) with
      | error e => simp [hpre, hresp, h1]
      | ok reply => simp [hpre, hresp, h1]
  · cases hpre : build_mental_model_preamble s.mm_values with
    | error e => simp [hpre, h1, h2]
    | ok pre =>
      cases hresp : o.respOracle (mkCombinedPrompt pre
          (build_history_text (s.messages ++ [⟨"user", u⟩]))) with
      | error e => simp [hpre, hresp, h1, h2]
      | ok reply => simp [hpre, hresp, h1, h2]
  · cases hpre : build_mental_model_preamble (infer_mental_model_with_llm (o.mmOracle u)).1 with
    | error e => simp [hpre, h1, h2]
    | ok pre =>
      cases hresp : o.respOracle (mkCombinedPrompt pre
          (build_history_text (s.messages ++ [⟨"user", u⟩]))) with
      | error e => simp [hpre, hresp, h1, h2]
      | ok reply => simp [hpre, hresp, h1, h2]

/-- Turn execution never touches the lock flag (lines 349-428 only read
`mm_locked`). -/
theorem runTurn_preserves_flag (o : Oracles) (s : SessionState) (u now : String) :
    (runTurn o s u now).1.mm_locked = s.mm_locked := by
  unfold runTurn
  split_ifs <;> dsimp only <;> (repeat' split) <;> simp_all

/-- C9: when the script raises after the mental-model and assumption
steps of a turn (the unguarded response-generation call at lines
400-406, or the preamble format), nothing already stored is rolled
back: the user message stays appended to the transcript, the stored
mental-model values equal the values used this turn (updated when
inference ran, unchanged when locked), the latest-assumptions value and
the assumption-history entry stay recorded — while no turn-log entry is
appended, the turn counter is not incremented, and the response call was
attempted at most once (no retry). -/
theorem C9_raise_keeps_stored_state_no_retry (o : Oracles) (s : SessionState) (u now : String)
    (h : (runTurn o s u now).2.raised = true) :
    (runTurn o s u now).1.messages = s.messages ++ [⟨"user", u⟩] ∧
    (runTurn o s u now).1.turn_index = s.turn_index ∧
    (runTurn o s u now).1.turn_logs = s.turn_logs ∧
    (runTurn o s u now).1.assumptions_latest
      = some (infer_uncertain_assumptions_with_llm o.floatFn
          (o.assumpOracle (build_history_text (s.messages ++ [⟨"user", u⟩])))).1 ∧
    (runTurn o s u now).1.assumptions_history
      = s.assumptions_history ++
          [⟨s.turn_index + 1, now,
            (infer_uncertain_assumptions_with_llm o.floatFn
              (o.assumpOracle (build_history_text (s.messages ++ [⟨"user", u⟩])))).1⟩] ∧
    (runTurn o s u now).2.mmUsed = some (runTurn o s u now).1.mm_values ∧
    (runTurn o s u now).2.respCalls.length ≤ 1 := by
  unfold runTurn at h ⊢
  dsimp only at h ⊢
  split_ifs at h ⊢ with h1 h2 <;> dsimp only at h ⊢
  · cases hpre : build_mental_model_preamble (infer_mental_model_with_llm (o.mmOracle u)).1 with
    | error e => simp [hpre]
    | ok pre =>
      rw [hpre] at h
      dsimp only at h
      cases hresp : o.respOracle (mkCombinedPrompt pre
          (build_history_text (s.messages ++ [⟨"user", u⟩]))) with
      | error e => simp [hpre, hresp]
      | ok reply => rw [hresp] at h; dsimp only at h; simp at h
  · cases hpre : build_mental_model_preamble s.mm_values with
    | error e => simp [hpre]
    | ok pre =>
      rw [hpre] at h
      dsimp only at h
      cases hresp : o.respOracle (mkCombinedPrompt pre
          (build_history_text (s.messages ++ [⟨"user", u⟩]))) with
      | error e => simp [hpre, hresp]
      | ok reply => rw [hresp] at h; dsimp only at h; simp at h
  · cases hpre : build_mental_model_preamble (infer_mental_model_with_llm (o.mmOracle u)).1 with
    | error e => simp [hpre]
    | ok pre =>
      rw [hpre] at h
      dsimp only at h
      cases hresp : o.respOracle (mkCombinedPrompt pre
          (build_history_text (s.messages ++ [⟨"user", u⟩]))) with
      | error e => simp [hpre, hresp]
      | ok reply => rw [hresp] at h; dsimp only at h; simp at h

/-- C9 (witness): a concrete first turn whose response call raises: the
user message is stored, the log stays empty and the counter stays 0. -/
theorem C9_witness :
    (runTurn ⟨fun _ => none, fun _ => none, fun _ => .error (), fun _ => .error ()⟩
        initialState "hi" "t0").1.turn_logs = initialState.turn_logs ∧
    (runTurn ⟨fun _ => none, fun _ => none, fun _ => .error (), fun _ => .error ()⟩
        initialState "hi" "t0").1.turn_index = initialState.turn_index ∧
    (runTurn ⟨fun _ => none, fun _ => none, fun _ => .error (), fun _ => .error ()⟩
        initialState "hi" "t0").1.messages
      = initialState.messages ++ [⟨"user", "hi"⟩] := by
  have h := C9_raise_keeps_stored_state_no_retry
    ⟨fun _ => none, fun _ => none, fun _ => .error (), fun _ => .error ()⟩
    initialState "hi" "t0" (by rfl)
  exact ⟨h.2.2.1, h.2.1, h.1⟩

/-- C4: the per-turn mental-model dispatch.  On the first turn
(`turn_index = 0`) the model is inferred from the submitted message and
stored, tagged `inferred_first_turn`.  On a later turn with the model
locked, the stored values are reused verbatim, tagged `user_locked`, and
no inference call is dispatched.  On a later turn with the model
unlocked, the model is re-inferred, tagged `inferred_unlocked`, and the
single payload sent to the inferencer is exactly the latest message `u`
alone — not the cumulative transcript. -/
theorem C4_mm_dispatch_per_turn (o : Oracles) (s : SessionState) (u now : String) :
    (s.turn_index = 0 →
      (runTurn o s u now).2.mmSource = some "inferred_first_turn" ∧
      (runTurn o s u now).2.mmCalls = [u] ∧
      (runTurn o s u now).2.mmUsed = some (infer_mental_model_with_llm (o.mmOracle u)).1 ∧
      (runTurn o s u now).1.mm_values = (infer_mental_model_with_llm (o.mmOracle u)).1) ∧
    (s.turn_index ≠ 0 → s.mm_locked = true →
      (runTurn o s u now).2.mmSource = some "user_locked" ∧
      (runTurn o s u now).2.mmUsed = some s.mm_values ∧
      (runTurn o s u now).2.mmCalls = [] ∧
      (runTurn o s u now).1.mm_values = s.mm_values) ∧
    (s.turn_index ≠ 0 → s.mm_locked = false →
      (runTurn o s u now).2.mmSource = some "inferred_unlocked" ∧
      (runTurn o s u now).2.mmCalls = [u] ∧
      (runTurn o s u now).2.mmUsed = some (infer_mental_model_with_llm (o.mmOracle u)).1 ∧
      (runTurn o s u now).1.mm_values = (infer_mental_model_with_llm (o.mmOracle u)).1) := by
  obtain ⟨hu, hs, hc, hv⟩ := runTurn_mm_dispatch o s u now
  refine ⟨?_, ?_, ?_⟩
  · intro h0
    rw [hu, hs, hc, hv]
    simp [h0]
  · intro h0 hl
    rw [hu, hs, hc, hv]
    simp [h0, hl]
  · intro h0 hl
    rw [hu, hs, hc, hv]
    simp [h0, hl]

/-- C4 (witness): the theorem applied on a locked later-turn state: the
stored values are reused with tag `user_locked` and the inferencer
payload list is empty. -/
theorem C4_witness :
    (runTurn ⟨fun _ => none, fun _ => none, fun _ => .error (), fun _ => .ok "r"⟩
        { initialState with turn_index := 1, mm_locked := true }
        "msg" "t0").2.mmSource = some "user_locked" ∧
    (runTurn ⟨fun _ => none, fun _ => none, fun _ => .error (), fun _ => .ok "r"⟩
        { initialState with turn_index := 1, mm_locked := true }
        "msg" "t0").2.mmCalls = [] := by
  have h := (C4_mm_dispatch_per_turn
    ⟨fun _ => none, fun _ => none, fun _ => .error (), fun _ => .ok "r"⟩
    { initialState with turn_index := 1, mm_locked := true }
    "msg" "t0").2.1 (by simp) rfl
  exact ⟨h.1, h.2.2.1⟩

/-- On two numbers the lock comparator is the `1e-6` tolerance test. -/
theorem fieldDiffers_num (x q : ℚ) :
    fieldDiffers (.num x) (.num q) = true ↔ |x - q| > 1/1000000 := by
  simp [fieldDiffers, pyIsNumeric, asNum]

/-- On two booleans the lock comparator agrees with exact inequality
(the code routes booleans through the numeric-tolerance branch, but the
0/1 gap always exceeds the tolerance). -/
theorem fieldDiffers_bool (x y : Bool) :
    fieldDiffers (.bool x) (.bool y) = true ↔ x ≠ y := by
  cases x <;> cases y <;>
    simp [fieldDiffers, pyIsNumeric, asNum] <;> norm_num

/-- On two strings the lock comparator is exact inequality. -/
theorem fieldDiffers_str (x y : String) :
    fieldDiffers (.str x) (.str y) = true ↔ x ≠ y := by
  simp [fieldDiffers, pyIsNumeric, asNum, pyEqVal]

/-- C2: on a render cycle after the first completed turn while the model
is unlocked and the stored snapshot is well-typed, the lock transition
fires if and only if at least one of the nine control values differs
from the stored snapshot — beyond the `1e-6` tolerance for the seven
continuous fields, by exact inequality for the boolean and the role
string; when it fires, the stored values are replaced wholesale by the
just-submitted control values and a subsequent turn on the resulting
state uses exactly those values with no inference call; when it does not
fire, the state is untouched. -/
theorem C2_lock_fires_iff_any_control_differs
    (s : SessionState) (c : Controls)
    (q1 q2 q3 q4 q5 q6 q7 : ℚ) (b : Bool) (r : String)
    (hturn : s.turn_index ≠ 0) (hunlocked : s.mm_locked = false)
    (htyped : s.mm_values =
      { user_certainty := .num q1, model_seen_as_expert := .num q2
      , expects_correction := .bool b, validation_seeking := .num q3
      , objectivity_seeking := .num q4, empathy_expectation := .num q5
      , directness := .num q6, informativeness := .num q7
      , assistant_role := .str r }) :
    ((lockCheck s c).mm_locked = true ↔
      (|c.user_certainty - q1| > 1/1000000 ∨
       |c.model_seen_as_expert - q2| > 1/1000000 ∨
       c.expects_correction ≠ b ∨
       |c.validation_seeking - q3| > 1/1000000 ∨
       |c.objectivity_seeking - q4| > 1/1000000 ∨
       |c.empathy_expectation - q5| > 1/1000000 ∨
       |c.directness - q6| > 1/1000000 ∨
       |c.informativeness - q7| > 1/1000000 ∨
       c.assistant_role ≠ r)) ∧
    ((lockCheck s c).mm_locked = true →
      (lockCheck s c).mm_values = current_from_controls c ∧
      ∀ (o : Oracles) (u now : String),
        (runTurn o (lockCheck s c) u now).2.mmUsed = some (current_from_controls c) ∧
        (runTurn o (lockCheck s c) u now).2.mmCalls = [] ∧
        (runTurn o (lockCheck s c) u now).1.mm_values = current_from_controls c) ∧
    ((lockCheck s c).mm_locked = false → lockCheck s c = s) := by
  have hiff : controlsChanged c s.mm_values = true ↔
      (|c.user_certainty - q1| > 1/1000000 ∨
       |c.model_seen_as_expert - q2| > 1/1000000 ∨
       c.expects_correction ≠ b ∨
       |c.validation_seeking - q3| > 1/1000000 ∨
       |c.objectivity_seeking - q4| > 1/1000000 ∨
       |c.empathy_expectation - q5| > 1/1000000 ∨
       |c.directness - q6| > 1/1000000 ∨
       |c.informativeness - q7| > 1/1000000 ∨
       c.assistant_role ≠ r) := by
    rw [htyped]
    simp only [controlsChanged, current_from_controls, Bool.or_eq_true,
      fieldDiffers_num, fieldDiffers_bool, fieldDiffers_str]
    tauto
  unfold lockCheck
  rw [if_pos ⟨hturn, hunlocked⟩]
  by_cases hch : controlsChanged c s.mm_values = true
  · rw [if_pos hch]
    refine ⟨?_, ?_, ?_⟩
    · simpa using hiff.mp hch
    · intro _
      refine ⟨rfl, ?_⟩
      intro o u now
      obtain ⟨hu, _, hc2, hv⟩ := runTurn_mm_dispatch o
        { s with mm_locked := true, mm_values := current_from_controls c } u now
      rw [hu, hc2, hv]
      simp [hturn]
    · intro hfalse
      exact absurd hfalse (by simp)
  · rw [if_neg hch]
    refine ⟨?_, ?_, fun _ => rfl⟩
    · rw [hunlocked]
      constructor
      · intro hfalse; exact absurd hfalse (by simp)
      · intro hd; exact absurd (hiff.mpr hd) hch
    · intro hl; exact absurd (hunlocked ▸ hl) (by simp)

/-- C2 (witness): the theorem applied to a concrete unlocked post-first
turn state holding the defaults, with only the directness control moved
from 0.5 to 0.6: the lock fires and the controls are stored wholesale. -/
theorem C2_witness :
    (lockCheck { initialState with turn_index := 1 }
      ⟨1/2, 4/5, true, 1/2, 1/2, 1/2, 3/5, 7/10, "Neutral assistant"⟩).mm_locked = true ∧
    (lockCheck { initialState with turn_index := 1 }
      ⟨1/2, 4/5, true, 1/2, 1/2, 1/2, 3/5, 7/10, "Neutral assistant"⟩).mm_values
      = current_from_controls ⟨1/2, 4/5, true, 1/2, 1/2, 1/2, 3/5, 7/10, "Neutral assistant"⟩ := by
  have h := C2_lock_fires_iff_any_control_differs
    { initialState with turn_index := 1 }
    ⟨1/2, 4/5, true, 1/2, 1/2, 1/2, 3/5, 7/10, "Neutral assistant"⟩
    (1/2) (4/5) (1/2) (1/2) (1/2) (1/2) (7/10) true "Neutral assistant"
    (by simp) rfl rfl
  have hfire : (lockCheck { initialState with turn_index := 1 }
      ⟨1/2, 4/5, true, 1/2, 1/2, 1/2, 3/5, 7/10, "Neutral assistant"⟩).mm_locked = true := by
    apply h.1.mpr
    right; right; right; right; right; right; left
    norm_num
    rw [abs_of_nonneg (by norm_num : (0:ℚ) ≤ 1/10)]
    norm_num
  exact ⟨hfire, (h.2.1 hfire).1⟩

/-- The lock check leaves a locked state untouched. -/
theorem lockCheck_of_locked {s : SessionState} (c : Controls)
    (h : s.mm_locked = true) : lockCheck s c = s := by
  unfold lockCheck
  rw [if_neg]
  simp [h]

/-- The lock check is skipped before the first completed turn. -/
theorem lockCheck_of_first_turn {s : SessionState} (c : Controls)
    (h : s.turn_index = 0) : lockCheck s c = s := by
  unfold lockCheck
  rw [if_neg]
  simp [h]

/-- The lock flag becomes true through the lock check only out of a
post-first-turn unlocked state with a differing control. -/
theorem lockCheck_flag_inv {s : SessionState} {c : Controls}
    (h : (lockCheck s c).mm_locked = true) :
    s.mm_locked = true ∨ (s.turn_index ≠ 0 ∧ controlsChanged c s.mm_values = true) := by
  unfold lockCheck at h
  split_ifs at h with h1 h2
  · exact Or.inr ⟨h1.1, h2⟩
  · exact Or.inl h
  · exact Or.inl h

/-- The chat-input stage never writes the lock flag. -/
theorem chatStep_preserves_flag (o : Oracles) (s : SessionState)
    (key : String) (inp : Option String) (now : String) :
    (chatStep o s key inp now).1.mm_locked = s.mm_locked := by
  cases inp with
  | none => rfl
  | some u =>
    unfold chatStep
    split_ifs with h
    · rfl
    · exact runTurn_preserves_flag o s u now

/-- A true lock flag survives any run of further render cycles. -/
theorem foldl_keeps_flag (o : Oracles) :
    ∀ (l : List CycleInput) (s : SessionState), s.mm_locked = true →
      (l.foldl (fun s i => (renderCycle o s i.controls i.api_key i.user_input i.now).1)
        s).mm_locked = true := by
  intro l
  induction l with
  | nil => intro s h; exact h
  | cons i rest ih =>
    intro s h
    apply ih
    unfold renderCycle
    rw [chatStep_preserves_flag, lockCheck_of_locked i.controls h]
    exact h

/-- C3: the lock flag starts false; a true flag is preserved by every
render cycle (and hence by any continuation of the session, so the
false-to-true transition happens at most once and `Locked` is terminal);
the flag is untouched by a cycle run before the first completed turn;
and a cycle can turn the flag on only out of a post-first-turn unlocked
state in which a control differs from the stored snapshot — the turn
execution itself never writes the flag. -/
theorem C3_lock_starts_false_latches_at_most_once :
    initialState.mm_locked = false ∧
    (∀ (o : Oracles) (s : SessionState) (c : Controls) (key : String)
        (inp : Option String) (now : String),
      s.mm_locked = true → (renderCycle o s c key inp now).1.mm_locked = true) ∧
    (∀ (o : Oracles) (s : SessionState) (c : Controls) (key : String)
        (inp : Option String) (now : String),
      s.turn_index = 0 → (renderCycle o s c key inp now).1.mm_locked = s.mm_locked) ∧
    (∀ (o : Oracles) (s : SessionState) (c : Controls) (key : String)
        (inp : Option String) (now : String),
      (renderCycle o s c key inp now).1.mm_locked = true →
      s.mm_locked = true ∨ (s.turn_index ≠ 0 ∧ controlsChanged c s.mm_values = true)) ∧
    (∀ (o : Oracles) (inputs more : List CycleInput),
      (runSession o inputs).mm_locked = true →
      (runSession o (inputs ++ more)).mm_locked = true) := by
  refine ⟨rfl, ?_, ?_, ?_, ?_⟩
  · intro o s c key inp now h
    unfold renderCycle
    rw [chatStep_preserves_flag, lockCheck_of_locked c h]
    exact h
  · intro o s c key inp now h
    unfold renderCycle
    rw [chatStep_preserves_flag, lockCheck_of_first_turn c h]
  · intro o s c key inp now h
    unfold renderCycle at h
    rw [chatStep_preserves_flag] at h
    exact lockCheck_flag_inv h
  · intro o inputs more h
    unfold runSession at h ⊢
    rw [List.foldl_append]
    exact foldl_keeps_flag o more _ h

/-- C3 (witness): a locked state stays locked through a concrete render
cycle. -/
theorem C3_witness :
    (renderCycle ⟨fun _ => none, fun _ => none, fun _ => .error (), fun _ => .ok "r"⟩
      { initialState with turn_index := 1, mm_locked := true }
      ⟨1/2, 4/5, true, 1/2, 1/2, 1/2, 1/2, 7/10, "Neutral assistant"⟩
      "" none "t").1.mm_locked = true :=
  C3_lock_starts_false_latches_at_most_once.2.1 _ _ _ _ _ _ rfl

/-- C8: submitting a message while the API-key field is empty shows an
error and aborts the turn with no session-state mutation at all and no
external call dispatched: the chat stage returns the state unchanged and
an outcome that only flags the error (empty call lists, no reply, no
raise). -/
theorem C8_empty_key_aborts_without_mutation
    (o : Oracles) (s : SessionState) (u now : String) :
    chatStep o s "" (some u) now = (s, { noTurn with apiErrorShown := true }) := rfl
